import Mathlib

/-!
Verification of the markdown-table-to-metadata interpreter of
`pdf_parse_restapi_updatecolumnlevel.py` (function
`extract_table_details_from_markdown`, row-processing loop).

The embedding mirrors the Python row loop.  A row is the five cells
`column_1 .. column_5` of the dataframe after `str(...).strip()`, so every
cell is a plain string and an absent cell is `""` while a pandas missing
value prints as the literal `"nan"`.  The mutable function-level variables
(`in_key_field_section`, `in_field_section`, `table_name`,
`current_Key_Field_Fullname`, `current_Normal_Field_Fullname`, `metadata`,
`results`) become the fields of `PState`.  Python `dict`s keep insertion
order and updating an existing key keeps its position, which is what
`dictInsert` on an association list does.  A `KeyError` raised inside the
row loop is caught by the per-file `except Exception` handler, so the rest
of that document's rows are skipped while the state mutated so far is
kept; `runRows` models exactly that.
-/

/-- Boolean test that the list `p` starts the list `l`. -/
def startsL : List Char → List Char → Bool
  | [], _ => true
  | _ :: _, [] => false
  | a :: as, b :: bs => a = b && startsL as bs

/-- Boolean test that `p` occurs as a contiguous run inside `l`. -/
def subL (p : List Char) : List Char → Bool
  | [] => startsL p []
  | c :: rest => startsL p (c :: rest) || subL p rest

/-- Python's `pat in s` substring test on strings. -/
def strIn (pat s : String) : Bool := subL pat.toList s.toList

/-- One parsed table row: the stripped string values of dataframe columns
`column_1` .. `column_5` (an absent column yields `""`, a pandas missing
value yields the literal `"nan"`). -/
structure Row where
  col1 : String
  col2 : String
  col3 : String
  col4 : String
  col5 : String
deriving Repr, DecidableEq

/-- The per-field record the Python code stores:
`{"type": ..., "description": ..., "foreign_key": ...}`. -/
structure FieldInfo where
  type : String
  description : String
  foreign_key : String
deriving Repr, DecidableEq

/-- Ordered insert-or-update on an association list, matching Python dict
assignment `d[k] = v`: an existing key keeps its position, a new key is
appended at the end. -/
def dictInsert {α : Type} (k : String) (v : α) : List (String × α) → List (String × α)
  | [] => [(k, v)]
  | (k', v') :: rest => if k' = k then (k, v) :: rest else (k', v') :: dictInsert k v rest

/-- Ordered lookup on an association list, matching Python `d[k]` /
`k in d`. -/
def dictLookup {α : Type} (k : String) : List (String × α) → Option α
  | [] => none
  | (k', v') :: rest => if k' = k then some v' else dictLookup k rest

/-- The per-table record the Python code stores under `metadata[table_name]`:
table name, synonym, description, module name, and the two ordered field
dictionaries. -/
structure TableMetadata where
  tableName : String
  tableSynonym : Option String
  tableDescription : Option String
  moduleName : Option String
  keyFields : List (String × FieldInfo)
  normalFields : List (String × FieldInfo)
deriving Repr, DecidableEq

/-- The fresh record built in the `'Table Name' in col2` branch. -/
def freshMeta (name : String) : TableMetadata :=
  { tableName := name
    tableSynonym := none
    tableDescription := none
    moduleName := none
    keyFields := []
    normalFields := [] }

/-- The interpreter state: the function-level mutable variables of
`extract_table_details_from_markdown` that the row loop reads and writes. -/
structure PState where
  inKeyFieldSection : Bool
  inFieldSection : Bool
  tableName : Option String
  currentKeyFieldFullname : Option String
  currentNormalFieldFullname : Option String
  metadata : List (String × TableMetadata)
  results : List String
deriving Repr, DecidableEq

/-- The state at function entry. -/
def initState : PState :=
  { inKeyFieldSection := false
    inFieldSection := false
    tableName := none
    currentKeyFieldFullname := none
    currentNormalFieldFullname := none
    metadata := []
    results := [] }

/-- A Python `KeyError` escaping the row loop (dict subscript on a missing
key, e.g. `metadata[None]`). -/
inductive Err where
  | keyError : Err
deriving Repr, DecidableEq

/-- The field record built at every entry-creation site:
type = col3, description = col4, foreign key = col5 with the `"nan"`
sentinel normalized to `""`. -/
def mkFieldInfo (r : Row) : FieldInfo :=
  { type := r.col3
    description := r.col4
    foreign_key := if r.col5 = "nan" then "" else r.col5 }

/-- Entry creation in the key-field section:
`current_Key_Field_Fullname = name` followed by
`metadata[table_name]["Key Fields"][name] = {...}`. -/
def insertKeyField (s : PState) (t name : String) (r : Row) : Except Err PState :=
  match dictLookup t s.metadata with
  | none => .error .keyError
  | some md =>
    .ok { s with
          currentKeyFieldFullname := some name
          metadata := dictInsert t
            { md with keyFields := dictInsert name (mkFieldInfo r) md.keyFields }
            s.metadata }

/-- Entry creation in the normal-field section:
`current_Normal_Field_Fullname = name` followed by
`metadata[table_name]["Normal Fields"][name] = {...}`. -/
def insertNormalField (s : PState) (t name : String) (r : Row) : Except Err PState :=
  match dictLookup t s.metadata with
  | none => .error .keyError
  | some md =>
    .ok { s with
          currentNormalFieldFullname := some name
          metadata := dictInsert t
            { md with normalFields := dictInsert name (mkFieldInfo r) md.normalFields }
            s.metadata }

/-- Description continuation in the key-field section: append `" " + desc`
to `metadata[table_name]["Key Fields"][pf]["description"]`. -/
def appendKeyDesc (s : PState) (t pf d : String) : Except Err PState :=
  match dictLookup t s.metadata with
  | none => .error .keyError
  | some md =>
    match dictLookup pf md.keyFields with
    | none => .error .keyError
    | some fi =>
      let fi' := { fi with description := fi.description ++ " " ++ d }
      .ok { s with
            metadata := dictInsert t
              { md with keyFields := dictInsert pf fi' md.keyFields }
              s.metadata }

/-- Description continuation in the normal-field section. -/
def appendNormalDesc (s : PState) (t pf d : String) : Except Err PState :=
  match dictLookup t s.metadata with
  | none => .error .keyError
  | some md =>
    match dictLookup pf md.normalFields with
    | none => .error .keyError
    | some fi =>
      let fi' := { fi with description := fi.description ++ " " ++ d }
      .ok { s with
            metadata := dictInsert t
              { md with normalFields := dictInsert pf fi' md.normalFields }
              s.metadata }

/-- The `if in_key_field_section:` block.  `next?` is `df.iloc[idx + 1]`
when `idx + 1 < len(df)`, else `none`. -/
def keyFieldStep (s : PState) (t : String) (r : Row) (next? : Option Row) :
    Except Err PState :=
  if r.col1 = "nan" && r.col2 ≠ "" && r.col2 ≠ "nan" then
    if r.col2.length ≥ 19 then
      match next? with
      | some nr =>
        if nr.col1 ≠ "nan" && nr.col2 ≠ "nan" then
          insertKeyField s t (r.col2 ++ nr.col2) r
        else .ok s
      | none => .ok s
    else
      insertKeyField s t r.col2 r
  else
    match s.currentKeyFieldFullname with
    | none => .ok s
    | some pf =>
      if pf ≠ "" && r.col4 ≠ "nan" && r.col4 ≠ "Unnamed: 3" && r.col4 ≠ "" then
        appendKeyDesc s t pf r.col4
      else .ok s

/-- The `elif in_field_section:` block. -/
def normalFieldStep (s : PState) (t : String) (r : Row) (next? : Option Row) :
    Except Err PState :=
  if r.col1 = "nan" && r.col2 ≠ "" && r.col2 ≠ "nan" then
    if r.col2.length ≥ 19 then
      match next? with
      | some nr =>
        if nr.col1 ≠ "nan" && nr.col2 ≠ "nan" then
          insertNormalField s t (r.col2 ++ nr.col2) r
        else .ok s
      | none => .ok s
    else
      insertNormalField s t r.col2 r
  else
    match s.currentNormalFieldFullname with
    | none => .ok s
    | some pf =>
      if pf ≠ "" && r.col4 ≠ "nan" && r.col4 ≠ "Unnamed: 3" && r.col4 ≠ "" then
        appendNormalDesc s t pf r.col4
      else .ok s

/-- Update one of the three optional string attributes of the current
table's record, as in the `'Table Synonym' in col2` /
`'Table Comments' in col2` / `'Module Name' in col2` branches:
`metadata[table_name]` raises `KeyError` when `table_name` is `None`
(or not a key), otherwise the attribute is overwritten. -/
def setAttr (s : PState) (upd : TableMetadata → TableMetadata) : Except Err PState :=
  match s.tableName with
  | none => .error .keyError
  | some t =>
    match dictLookup t s.metadata with
    | none => .error .keyError
    | some md => .ok { s with metadata := dictInsert t (upd md) s.metadata }

/-- One iteration of `for idx, row in df.iterrows()`.  The branch on
`col2 is None and col3 is None and col4 is None` in the source can never
fire (every cell is a `str(...)` result, never `None`), so it has no
counterpart here. -/
def step (s : PState) (r : Row) (next? : Option Row) : Except Err PState :=
  if strIn "Table Name" r.col2 then
    .ok { s with
          tableName := some r.col3
          results := s.results ++ [r.col3]
          inFieldSection := false
          inKeyFieldSection := false
          metadata := dictInsert r.col3 (freshMeta r.col3) s.metadata }
  else if strIn "Table Synonym" r.col2 then
    setAttr s (fun md => { md with tableSynonym := some r.col3 })
  else if strIn "Table Comments" r.col2 then
    setAttr s (fun md => { md with tableDescription := some r.col3 })
  else if strIn "Module Name" r.col2 then
    setAttr s (fun md => { md with moduleName := some r.col3 })
  else if strIn "Key Field Name" r.col2 then
    .ok { s with
          inKeyFieldSection := true
          inFieldSection := false
          currentKeyFieldFullname := none }
  else if strIn "Field Name" r.col2 then
    .ok { s with
          inFieldSection := true
          inKeyFieldSection := false
          currentNormalFieldFullname := none }
  else
    match s.tableName with
    | none => .ok s
    | some t =>
      if t = "" then .ok s
      else if s.inKeyFieldSection then keyFieldStep s t r next?
      else if s.inFieldSection then normalFieldStep s t r next?
      else .ok s

/-- Process the rows of one table document in order.  An exception thrown
by a row is caught by the per-file `except Exception` handler, so the
remaining rows of the document are skipped and the state accumulated so
far survives. -/
def runRows (s : PState) : List Row → PState
  | [] => s
  | r :: rs =>
    match step s r rs.head? with
    | .ok s' => runRows s' rs
    | .error _ => s

/-- Process a sequence of table documents; state persists across document
boundaries. -/
def runDocs (s : PState) : List (List Row) → PState
  | [] => s
  | d :: ds => runDocs (runRows s d) ds

/-- The value `extract_table_details_from_markdown` returns to its caller:
only the `metadata` mapping (`return metadata`). -/
def extractOutput (docs : List (List Row)) : List (String × TableMetadata) :=
  (runDocs initState docs).metadata

/-- The encounter-ordered table-name list the loop accumulates in
`results` (never returned). -/
def namesList (docs : List (List Row)) : List String :=
  (runDocs initState docs).results

/-! ## Sample rows used in witnesses and counterexamples -/

/-- A table-name row: `col2 = "Table Name"`, `col3` the name. -/
def tnRow (name : String) : Row := ⟨"nan", "Table Name", name, "", ""⟩

/-- A table-synonym row with no table context attributes beyond `col3`. -/
def synRow : Row := ⟨"nan", "Table Synonym", "SYN", "", ""⟩

/-- A key-field section start row. -/
def kfsRow : Row := ⟨"nan", "Key Field Name", "Type", "Description", ""⟩

/-- A normal-field section start row. -/
def nfsRow : Row := ⟨"nan", "Field Name", "Type", "Description", ""⟩

/-- A field header row: `col1 = "nan"`, field name, type, description,
foreign key. -/
def hdrRow (f ty d fk : String) : Row := ⟨"nan", f, ty, d, fk⟩

/-- A table record for `"T"` holding one key field `status`. -/
def mdKeyStatus : TableMetadata :=
  { freshMeta "T" with keyFields := [("status", ⟨"CHAR", "Current", ""⟩)] }

/-- A table record for `"T"` holding one normal field `status`. -/
def mdNormalStatus : TableMetadata :=
  { freshMeta "T" with normalFields := [("status", ⟨"CHAR", "Current", ""⟩)] }

/-- A state inside table `"T"`, key-field section, no pending field. -/
def stateKey0 : PState :=
  { initState with
    tableName := some "T"
    inKeyFieldSection := true
    metadata := [("T", freshMeta "T")] }

/-- A state inside table `"T"`, normal-field section, no pending field. -/
def stateNorm0 : PState :=
  { initState with
    tableName := some "T"
    inFieldSection := true
    metadata := [("T", freshMeta "T")] }

/-- A state inside table `"T"`, key-field section, pending field `status`
with description `"Current"`. -/
def stateKeyT : PState :=
  { initState with
    tableName := some "T"
    inKeyFieldSection := true
    currentKeyFieldFullname := some "status"
    metadata := [("T", mdKeyStatus)] }

/-- A state inside table `"T"`, normal-field section, pending field
`status` with description `"Current"`. -/
def stateNormT : PState :=
  { initState with
    tableName := some "T"
    inFieldSection := true
    currentNormalFieldFullname := some "status"
    metadata := [("T", mdNormalStatus)] }

/-- The truncated 19-character key-field header row of the spec example. -/
def rowACC : Row := ⟨"nan", "ACCOUNT_OPEN_DATE_T", "DATE", "Account open", "nan"⟩

/-- The follow-up row carrying the name piece `"IMESTAMP"`. -/
def rowIME : Row := ⟨"1", "IMESTAMP", "", "", ""⟩

/-- The continuation row carrying description piece `"value of account."`. -/
def rowCont : Row := ⟨"1", "", "", "value of account.", ""⟩

/-! ## JSON serialization

`json.dump(metadata, f, ensure_ascii=False, indent=2)` writes the nested
dictionaries as a JSON document and `json.load` reads one back.  The text
layer (escaping, whitespace) belongs to the Python standard library; the
structure written and re-read is modelled by a JSON value tree.  Only the
three constructors the output uses appear: strings, `null` (for the three
optional attributes) and order-preserving objects. -/

/-- A JSON value as produced for the metadata mapping: a string, `null`,
or an object whose members keep insertion order. -/
inductive Json where
  | str : String → Json
  | null : Json
  | obj : List (String × Json) → Json

/-- Serialize an optional attribute: `None` becomes JSON `null`. -/
def optStrToJson : Option String → Json
  | none => .null
  | some s => .str s

/-- Serialize one field record. -/
def fieldInfoToJson (fi : FieldInfo) : Json :=
  .obj [("type", .str fi.type),
        ("description", .str fi.description),
        ("foreign_key", .str fi.foreign_key)]

/-- Serialize an ordered field dictionary. -/
def fieldsToJson (l : List (String × FieldInfo)) : List (String × Json) :=
  l.map (fun p => (p.1, fieldInfoToJson p.2))

/-- Serialize one table record with the exact key set and order the Python
dict holds. -/
def tableToJson (md : TableMetadata) : Json :=
  .obj [("Table Name", .str md.tableName),
        ("Table Synonym", optStrToJson md.tableSynonym),
        ("Table Description", optStrToJson md.tableDescription),
        ("Module Name", optStrToJson md.moduleName),
        ("Key Fields", .obj (fieldsToJson md.keyFields)),
        ("Normal Fields", .obj (fieldsToJson md.normalFields))]

/-- Serialize the whole metadata mapping, keys in first-created order. -/
def metadataToJson (m : List (String × TableMetadata)) : Json :=
  .obj (m.map (fun p => (p.1, tableToJson p.2)))

/-- Re-parse an optional attribute. -/
def jsonToOptStr : Json → Option (Option String)
  | .null => some none
  | .str s => some (some s)
  | .obj _ => none

/-- Re-parse one field record. -/
def jsonToFieldInfo : Json → Option FieldInfo
  | .obj [("type", .str t), ("description", .str d), ("foreign_key", .str fk)] =>
    some ⟨t, d, fk⟩
  | _ => none

/-- Re-parse an ordered field dictionary. -/
def jsonToFields : List (String × Json) → Option (List (String × FieldInfo))
  | [] => some []
  | (k, j) :: rest =>
    match jsonToFieldInfo j, jsonToFields rest with
    | some fi, some l => some ((k, fi) :: l)
    | _, _ => none

/-- Re-parse one table record. -/
def jsonToTable : Json → Option TableMetadata
  | .obj [("Table Name", .str n), ("Table Synonym", js), ("Table Description", jd),
          ("Module Name", jm), ("Key Fields", .obj kf), ("Normal Fields", .obj nf)] =>
    match jsonToOptStr js, jsonToOptStr jd, jsonToOptStr jm,
          jsonToFields kf, jsonToFields nf with
    | some sy, some de, some mo, some k, some f => some ⟨n, sy, de, mo, k, f⟩
    | _, _, _, _, _ => none
  | _ => none

/-- Re-parse the members of the top-level object. -/
def jsonToTables : List (String × Json) → Option (List (String × TableMetadata))
  | [] => some []
  | (k, j) :: rest =>
    match jsonToTable j, jsonToTables rest with
    | some md, some l => some ((k, md) :: l)
    | _, _ => none

/-- Re-parse a whole metadata mapping. -/
def jsonToMetadata : Json → Option (List (String × TableMetadata))
  | .obj l => jsonToTables l
  | _ => none

/-! ## Helper lemmas about the step function -/

/-- `col2` matches none of the six marker substrings, so the row falls
through to the final `else` of the classifier chain. -/
def dataRowCol2 (c : String) : Bool :=
  !strIn "Table Name" c && !strIn "Table Synonym" c && !strIn "Table Comments" c &&
  !strIn "Module Name" c && !strIn "Key Field Name" c && !strIn "Field Name" c

theorem step_tableNameRow (s : PState) (r : Row) (next? : Option Row)
    (h : strIn "Table Name" r.col2 = true) :
    step s r next? = .ok { s with
      tableName := some r.col3
      results := s.results ++ [r.col3]
      inFieldSection := false
      inKeyFieldSection := false
      metadata := dictInsert r.col3 (freshMeta r.col3) s.metadata } := by
  simp [step, h]

theorem step_dataRow (s : PState) (r : Row) (next? : Option Row)
    (h : dataRowCol2 r.col2 = true) :
    step s r next? =
      match s.tableName with
      | none => .ok s
      | some t =>
        if t = "" then .ok s
        else if s.inKeyFieldSection then keyFieldStep s t r next?
        else if s.inFieldSection then normalFieldStep s t r next?
        else .ok s := by
  simp only [dataRowCol2, Bool.and_eq_true, Bool.not_eq_true'] at h
  obtain ⟨⟨⟨⟨⟨h1, h2⟩, h3⟩, h4⟩, h5⟩, h6⟩ := h
  simp [step, h1, h2, h3, h4, h5, h6]

theorem dictLookup_dictInsert_self {α : Type} (k : String) (v : α)
    (l : List (String × α)) : dictLookup k (dictInsert k v l) = some v := by
  induction l with
  | nil => simp [dictInsert, dictLookup]
  | cons p rest ih =>
    by_cases h : p.1 = k
    · simp [dictInsert, dictLookup, h]
    · simpa [dictInsert, dictLookup, h] using ih

theorem dictLookup_dictInsert_ne {α : Type} (k k' : String) (v : α)
    (l : List (String × α)) (h : k' ≠ k) :
    dictLookup k' (dictInsert k v l) = dictLookup k' l := by
  induction l with
  | nil => simp [dictInsert, dictLookup, Ne.symm h]
  | cons p rest ih =>
    by_cases hp : p.1 = k
    · have hpk : ¬ p.1 = k' := by rw [hp]; exact Ne.symm h
      simp [dictInsert, dictLookup, hp, hpk, Ne.symm h]
    · by_cases hk : p.1 = k'
      · simp [dictInsert, dictLookup, hp, hk, h]
      · simp [dictInsert, dictLookup, hp, hk, ih]

theorem map_fst_dictInsert_of_mem {α : Type} (k : String) (v v' : α)
    (l : List (String × α)) (h : dictLookup k l = some v) :
    (dictInsert k v' l).map Prod.fst = l.map Prod.fst := by
  induction l with
  | nil => simp [dictLookup] at h
  | cons p rest ih =>
    by_cases hp : p.1 = k
    · simp [dictInsert, hp]
    · simp only [dictLookup, if_neg hp] at h
      simp [dictInsert, hp, ih h]

theorem keyFieldStep_header_short (s : PState) (t : String) (r : Row)
    (next? : Option Row) (md : TableMetadata)
    (h1 : r.col1 = "nan") (h2 : r.col2 ≠ "") (h3 : r.col2 ≠ "nan")
    (h4 : r.col2.length < 19) (hmd : dictLookup t s.metadata = some md) :
    keyFieldStep s t r next? = .ok { s with
      currentKeyFieldFullname := some r.col2
      metadata := dictInsert t
        ({ md with keyFields := dictInsert r.col2 (mkFieldInfo r) md.keyFields })
        s.metadata } := by
  have h4' : ¬ (r.col2.length ≥ 19) := by omega
  simp [keyFieldStep, h1, h2, h3, h4', insertKeyField, hmd]

theorem keyFieldStep_header_long (s : PState) (t : String) (r nr : Row)
    (md : TableMetadata)
    (h1 : r.col1 = "nan") (h2 : r.col2 ≠ "") (h3 : r.col2 ≠ "nan")
    (h4 : r.col2.length ≥ 19) (hn1 : nr.col1 ≠ "nan") (hn2 : nr.col2 ≠ "nan")
    (hmd : dictLookup t s.metadata = some md) :
    keyFieldStep s t r (some nr) = .ok { s with
      currentKeyFieldFullname := some (r.col2 ++ nr.col2)
      metadata := dictInsert t
        ({ md with keyFields :=
            dictInsert (r.col2 ++ nr.col2) (mkFieldInfo r) md.keyFields })
        s.metadata } := by
  simp [keyFieldStep, h1, h2, h3, h4, hn1, hn2, insertKeyField, hmd]

theorem keyFieldStep_cont_append (s : PState) (t : String) (r : Row)
    (next? : Option Row) (pf : String) (md : TableMetadata) (fi : FieldInfo)
    (hc : r.col1 ≠ "nan") (hpf : s.currentKeyFieldFullname = some pf)
    (hpf0 : pf ≠ "") (h4a : r.col4 ≠ "nan") (h4b : r.col4 ≠ "Unnamed: 3")
    (h4c : r.col4 ≠ "") (hmd : dictLookup t s.metadata = some md)
    (hfi : dictLookup pf md.keyFields = some fi) :
    keyFieldStep s t r next? = .ok { s with
      metadata := dictInsert t
        ({ md with keyFields := dictInsert pf ({ fi with description := fi.description ++ " " ++ r.col4 }) md.keyFields })
        s.metadata } := by
  simp [keyFieldStep, hc, hpf, hpf0, h4a, h4b, h4c, appendKeyDesc, hmd, hfi]

theorem normalFieldStep_header_short (s : PState) (t : String) (r : Row)
    (next? : Option Row) (md : TableMetadata)
    (h1 : r.col1 = "nan") (h2 : r.col2 ≠ "") (h3 : r.col2 ≠ "nan")
    (h4 : r.col2.length < 19) (hmd : dictLookup t s.metadata = some md) :
    normalFieldStep s t r next? = .ok { s with
      currentNormalFieldFullname := some r.col2
      metadata := dictInsert t
        ({ md with normalFields := dictInsert r.col2 (mkFieldInfo r) md.normalFields })
        s.metadata } := by
  have h4' : ¬ (r.col2.length ≥ 19) := by omega
  simp [normalFieldStep, h1, h2, h3, h4', insertNormalField, hmd]

theorem normalFieldStep_header_long (s : PState) (t : String) (r nr : Row)
    (md : TableMetadata)
    (h1 : r.col1 = "nan") (h2 : r.col2 ≠ "") (h3 : r.col2 ≠ "nan")
    (h4 : r.col2.length ≥ 19) (hn1 : nr.col1 ≠ "nan") (hn2 : nr.col2 ≠ "nan")
    (hmd : dictLookup t s.metadata = some md) :
    normalFieldStep s t r (some nr) = .ok { s with
      currentNormalFieldFullname := some (r.col2 ++ nr.col2)
      metadata := dictInsert t
        ({ md with normalFields :=
            dictInsert (r.col2 ++ nr.col2) (mkFieldInfo r) md.normalFields })
        s.metadata } := by
  simp [normalFieldStep, h1, h2, h3, h4, hn1, hn2, insertNormalField, hmd]

theorem normalFieldStep_cont_append (s : PState) (t : String) (r : Row)
    (next? : Option Row) (pf : String) (md : TableMetadata) (fi : FieldInfo)
    (hc : r.col1 ≠ "nan") (hpf : s.currentNormalFieldFullname = some pf)
    (hpf0 : pf ≠ "") (h4a : r.col4 ≠ "nan") (h4b : r.col4 ≠ "Unnamed: 3")
    (h4c : r.col4 ≠ "") (hmd : dictLookup t s.metadata = some md)
    (hfi : dictLookup pf md.normalFields = some fi) :
    normalFieldStep s t r next? = .ok { s with
      metadata := dictInsert t
        ({ md with normalFields := dictInsert pf ({ fi with description := fi.description ++ " " ++ r.col4 }) md.normalFields })
        s.metadata } := by
  simp [normalFieldStep, hc, hpf, hpf0, h4a, h4b, h4c, appendNormalDesc, hmd, hfi]

theorem step_ok_preserves_empty (s : PState) (r : Row) (next? : Option Row)
    (s' : PState) (hT : s.tableName = none) (hM : s.metadata = [])
    (hr : strIn "Table Name" r.col2 = false)
    (hok : step s r next? = .ok s') :
    s'.tableName = none ∧ s'.metadata = [] := by
  simp only [step, setAttr, hr, hT, Bool.false_eq_true, if_false] at hok
  split at hok
  · exact absurd hok (by simp)
  · split at hok
    · exact absurd hok (by simp)
    · split at hok
      · exact absurd hok (by simp)
      · split at hok
        · cases hok
          exact ⟨rfl, hM⟩
        · split at hok
          · cases hok
            exact ⟨rfl, hM⟩
          · cases hok
            exact ⟨hT, hM⟩

theorem runRows_preserves_empty (rows : List Row) :
    ∀ s : PState, s.tableName = none → s.metadata = [] →
    (∀ r ∈ rows, strIn "Table Name" r.col2 = false) →
    (runRows s rows).metadata = [] := by
  induction rows with
  | nil => intro s _ hM _; simpa [runRows]
  | cons r rs ih =>
    intro s hT hM hall
    simp only [runRows]
    cases hok : step s r rs.head? with
    | ok s' =>
      have hinv := step_ok_preserves_empty s r rs.head? s' hT hM
        (hall r (by simp)) hok
      exact ih s' hinv.1 hinv.2 (fun x hx => hall x (by simp [hx]))
    | error e => simpa using hM


theorem keyFieldStep_cont_none (s : PState) (t : String) (r : Row)
    (next? : Option Row) (h : r.col1 ≠ "nan" ∨ r.col2 = "" ∨ r.col2 = "nan")
    (hpf : s.currentKeyFieldFullname = none) :
    keyFieldStep s t r next? = .ok s := by
  rcases h with h | h | h <;> simp [keyFieldStep, h, hpf]

theorem keyFieldStep_cont_some (s : PState) (t : String) (r : Row)
    (next? : Option Row) (pf : String)
    (h : r.col1 ≠ "nan" ∨ r.col2 = "" ∨ r.col2 = "nan")
    (hpf : s.currentKeyFieldFullname = some pf) :
    keyFieldStep s t r next? =
      if pf ≠ "" && r.col4 ≠ "nan" && r.col4 ≠ "Unnamed: 3" && r.col4 ≠ "" then
        appendKeyDesc s t pf r.col4
      else .ok s := by
  rcases h with h | h | h <;> simp [keyFieldStep, h, hpf]

theorem normalFieldStep_cont_none (s : PState) (t : String) (r : Row)
    (next? : Option Row) (h : r.col1 ≠ "nan" ∨ r.col2 = "" ∨ r.col2 = "nan")
    (hpf : s.currentNormalFieldFullname = none) :
    normalFieldStep s t r next? = .ok s := by
  rcases h with h | h | h <;> simp [normalFieldStep, h, hpf]

theorem normalFieldStep_cont_some (s : PState) (t : String) (r : Row)
    (next? : Option Row) (pf : String)
    (h : r.col1 ≠ "nan" ∨ r.col2 = "" ∨ r.col2 = "nan")
    (hpf : s.currentNormalFieldFullname = some pf) :
    normalFieldStep s t r next? =
      if pf ≠ "" && r.col4 ≠ "nan" && r.col4 ≠ "Unnamed: 3" && r.col4 ≠ "" then
        appendNormalDesc s t pf r.col4
      else .ok s := by
  rcases h with h | h | h <;> simp [normalFieldStep, h, hpf]

theorem appendKeyDesc_ok_keys (s : PState) (t pf d : String) (s' : PState)
    (hok : appendKeyDesc s t pf d = .ok s') (tb : String) :
    (dictLookup tb s'.metadata).map
        (fun m => (m.keyFields.map Prod.fst, m.normalFields.map Prod.fst)) =
      (dictLookup tb s.metadata).map
        (fun m => (m.keyFields.map Prod.fst, m.normalFields.map Prod.fst)) := by
  cases hmd : dictLookup t s.metadata with
  | none => simp only [appendKeyDesc, hmd] at hok; exact absurd hok (by simp)
  | some md =>
    cases hfi : dictLookup pf md.keyFields with
    | none => simp only [appendKeyDesc, hmd, hfi] at hok; exact absurd hok (by simp)
    | some fi =>
      simp only [appendKeyDesc, hmd, hfi, Except.ok.injEq] at hok
      subst hok
      by_cases htb : tb = t
      · subst htb
        simp [dictLookup_dictInsert_self, hmd,
          map_fst_dictInsert_of_mem pf fi _ md.keyFields hfi]
      · simp [dictLookup_dictInsert_ne t tb _ s.metadata htb]

theorem appendNormalDesc_ok_keys (s : PState) (t pf d : String) (s' : PState)
    (hok : appendNormalDesc s t pf d = .ok s') (tb : String) :
    (dictLookup tb s'.metadata).map
        (fun m => (m.keyFields.map Prod.fst, m.normalFields.map Prod.fst)) =
      (dictLookup tb s.metadata).map
        (fun m => (m.keyFields.map Prod.fst, m.normalFields.map Prod.fst)) := by
  cases hmd : dictLookup t s.metadata with
  | none => simp only [appendNormalDesc, hmd] at hok; exact absurd hok (by simp)
  | some md =>
    cases hfi : dictLookup pf md.normalFields with
    | none => simp only [appendNormalDesc, hmd, hfi] at hok; exact absurd hok (by simp)
    | some fi =>
      simp only [appendNormalDesc, hmd, hfi, Except.ok.injEq] at hok
      subst hok
      by_cases htb : tb = t
      · subst htb
        simp [dictLookup_dictInsert_self, hmd,
          map_fst_dictInsert_of_mem pf fi _ md.normalFields hfi]
      · simp [dictLookup_dictInsert_ne t tb _ s.metadata htb]

theorem keyFieldStep_ok_keys (s : PState) (t : String) (r : Row)
    (next? : Option Row) (s' : PState)
    (h : r.col1 ≠ "nan" ∨ r.col2 = "" ∨ r.col2 = "nan")
    (hok : keyFieldStep s t r next? = .ok s') (tb : String) :
    (dictLookup tb s'.metadata).map
        (fun m => (m.keyFields.map Prod.fst, m.normalFields.map Prod.fst)) =
      (dictLookup tb s.metadata).map
        (fun m => (m.keyFields.map Prod.fst, m.normalFields.map Prod.fst)) := by
  cases hpf : s.currentKeyFieldFullname with
  | none =>
    rw [keyFieldStep_cont_none s t r next? h hpf] at hok
    cases hok
    rfl
  | some pf =>
    rw [keyFieldStep_cont_some s t r next? pf h hpf] at hok
    by_cases hc :
        (pf ≠ "" && r.col4 ≠ "nan" && r.col4 ≠ "Unnamed: 3" && r.col4 ≠ "") = true
    · rw [if_pos hc] at hok
      exact appendKeyDesc_ok_keys s t pf r.col4 s' hok tb
    · rw [if_neg hc] at hok
      cases hok
      rfl

theorem normalFieldStep_ok_keys (s : PState) (t : String) (r : Row)
    (next? : Option Row) (s' : PState)
    (h : r.col1 ≠ "nan" ∨ r.col2 = "" ∨ r.col2 = "nan")
    (hok : normalFieldStep s t r next? = .ok s') (tb : String) :
    (dictLookup tb s'.metadata).map
        (fun m => (m.keyFields.map Prod.fst, m.normalFields.map Prod.fst)) =
      (dictLookup tb s.metadata).map
        (fun m => (m.keyFields.map Prod.fst, m.normalFields.map Prod.fst)) := by
  cases hpf : s.currentNormalFieldFullname with
  | none =>
    rw [normalFieldStep_cont_none s t r next? h hpf] at hok
    cases hok
    rfl
  | some pf =>
    rw [normalFieldStep_cont_some s t r next? pf h hpf] at hok
    by_cases hc :
        (pf ≠ "" && r.col4 ≠ "nan" && r.col4 ≠ "Unnamed: 3" && r.col4 ≠ "") = true
    · rw [if_pos hc] at hok
      exact appendNormalDesc_ok_keys s t pf r.col4 s' hok tb
    · rw [if_neg hc] at hok
      cases hok
      rfl

theorem step_ok_keys_not_header (s : PState) (r : Row) (next? : Option Row)
    (s' : PState) (hd : dataRowCol2 r.col2 = true)
    (h : r.col1 ≠ "nan" ∨ r.col2 = "" ∨ r.col2 = "nan")
    (hok : step s r next? = .ok s') (tb : String) :
    (dictLookup tb s'.metadata).map
        (fun m => (m.keyFields.map Prod.fst, m.normalFields.map Prod.fst)) =
      (dictLookup tb s.metadata).map
        (fun m => (m.keyFields.map Prod.fst, m.normalFields.map Prod.fst)) := by
  rw [step_dataRow s r next? hd] at hok
  cases hT : s.tableName with
  | none =>
    simp only [hT] at hok
    cases hok
    rfl
  | some t =>
    simp only [hT] at hok
    by_cases ht : t = ""
    · rw [if_pos ht] at hok
      cases hok
      rfl
    · rw [if_neg ht] at hok
      cases hkf : s.inKeyFieldSection
      · rw [hkf] at hok
        rw [if_neg (by simp)] at hok
        cases hnf : s.inFieldSection
        · rw [hnf] at hok
          rw [if_neg (by simp)] at hok
          cases hok
          rfl
        · rw [hnf] at hok
          rw [if_pos rfl] at hok
          exact normalFieldStep_ok_keys s t r next? s' h hok tb
      · rw [hkf] at hok
        rw [if_pos rfl] at hok
        exact keyFieldStep_ok_keys s t r next? s' h hok tb

theorem step_attr_before_table_err (s : PState) (r : Row) (next? : Option Row)
    (hT : s.tableName = none) (hr : strIn "Table Name" r.col2 = false)
    (h : strIn "Table Synonym" r.col2 = true ∨ strIn "Table Comments" r.col2 = true ∨
      strIn "Module Name" r.col2 = true) :
    step s r next? = .error .keyError := by
  rcases h with h | h | h
  · simp [step, hr, h, setAttr, hT]
  · cases h2 : strIn "Table Synonym" r.col2
    · simp [step, hr, h2, h, setAttr, hT]
    · simp [step, hr, h2, setAttr, hT]
  · cases h2 : strIn "Table Synonym" r.col2
    · cases h3 : strIn "Table Comments" r.col2
      · simp [step, hr, h2, h3, h, setAttr, hT]
      · simp [step, hr, h2, h3, setAttr, hT]
    · simp [step, hr, h2, setAttr, hT]

theorem step_no_attr_ok (s : PState) (r : Row) (next? : Option Row)
    (hT : s.tableName = none)
    (h1 : strIn "Table Name" r.col2 = false)
    (h2 : strIn "Table Synonym" r.col2 = false)
    (h3 : strIn "Table Comments" r.col2 = false)
    (h4 : strIn "Module Name" r.col2 = false) :
    ∃ s', step s r next? = .ok s' ∧ s'.metadata = s.metadata ∧
      s'.results = s.results := by
  cases h5 : strIn "Key Field Name" r.col2 with
  | true =>
    refine ⟨{ s with inKeyFieldSection := true, inFieldSection := false, currentKeyFieldFullname := none }, ?_, rfl, rfl⟩
    simp [step, h1, h2, h3, h4, h5]
  | false =>
    cases h6 : strIn "Field Name" r.col2 with
    | true =>
      refine ⟨{ s with inFieldSection := true, inKeyFieldSection := false, currentNormalFieldFullname := none }, ?_, rfl, rfl⟩
      simp [step, h1, h2, h3, h4, h5, h6]
    | false =>
      refine ⟨s, ?_, rfl, rfl⟩
      simp [step, h1, h2, h3, h4, h5, h6, hT]

theorem jsonToFieldInfo_round (fi : FieldInfo) :
    jsonToFieldInfo (fieldInfoToJson fi) = some fi := by
  cases fi
  rfl

theorem jsonToFields_round (l : List (String × FieldInfo)) :
    jsonToFields (fieldsToJson l) = some l := by
  induction l with
  | nil => rfl
  | cons p rest ih =>
    show jsonToFields ((p.1, fieldInfoToJson p.2) :: fieldsToJson rest) = some (p :: rest)
    simp [jsonToFields, jsonToFieldInfo_round, ih]

theorem jsonToTable_round (md : TableMetadata) :
    jsonToTable (tableToJson md) = some md := by
  cases md with
  | mk n sy de mo kf nf =>
    cases sy <;> cases de <;> cases mo <;>
      simp [tableToJson, jsonToTable, optStrToJson, jsonToOptStr, jsonToFields_round]

theorem jsonToTables_round (m : List (String × TableMetadata)) :
    jsonToTables (m.map (fun p => (p.1, tableToJson p.2))) = some m := by
  induction m with
  | nil => rfl
  | cons p rest ih => simp [jsonToTables, jsonToTable_round, ih]

/-! ## Claims -/

/-- C1 (amended).  Before any table-name row has set a table context
(`tableName = none`): a row matching none of the four attribute markers is
processed without error, leaving the metadata mapping and the results list
unchanged; but a Table Synonym / Table Comments / Module Name row raises a
`KeyError` (the `metadata[None]` subscript), which aborts the remainder of
the current document. -/
theorem claim1_rows_before_table :
    (∀ (s : PState) (r : Row) (next? : Option Row),
      s.tableName = none →
      strIn "Table Name" r.col2 = false →
      strIn "Table Synonym" r.col2 = false →
      strIn "Table Comments" r.col2 = false →
      strIn "Module Name" r.col2 = false →
      ∃ s', step s r next? = .ok s' ∧ s'.metadata = s.metadata ∧
        s'.results = s.results) ∧
    (∀ (s : PState) (r : Row) (next? : Option Row),
      s.tableName = none →
      strIn "Table Name" r.col2 = false →
      (strIn "Table Synonym" r.col2 = true ∨ strIn "Table Comments" r.col2 = true ∨
        strIn "Module Name" r.col2 = true) →
      step s r next? = .error .keyError) :=
  ⟨fun s r next? hT h1 h2 h3 h4 => step_no_attr_ok s r next? hT h1 h2 h3 h4,
   fun s r next? hT hr h => step_attr_before_table_err s r next? hT hr h⟩

/-- C1 counterexample: a Table Synonym row arriving before any Table Name
row raises a `KeyError` rather than being dropped silently, and the
remaining rows of the same document (here a Table Name row) are skipped. -/
theorem claim1_counterexample :
    step initState synRow none = .error .keyError ∧
    runRows initState [synRow, tnRow "T"] = initState := by
  constructor
  · rfl
  · rfl

/-- C1 witness. -/
theorem claim1_witness :
    (∃ s', step initState kfsRow none = .ok s' ∧ s'.metadata = initState.metadata ∧
      s'.results = initState.results) ∧
    step initState synRow none = .error .keyError :=
  ⟨claim1_rows_before_table.1 initState kfsRow none rfl (by decide) (by decide)
      (by decide) (by decide),
   claim1_rows_before_table.2 initState synRow none rfl (by decide)
      (Or.inl (by decide))⟩

/-- C2 counterexample: a Key Field Name row arriving before any Table Name
row does set the key-field section flag, so the interpreter's section mode
is not NONE afterwards. -/
theorem claim2_counterexample :
    (runRows initState [kfsRow]).inKeyFieldSection = true := by
  rfl

/-- C2 (amended).  For every prefix of the row stream without a Table Name
row, the metadata mapping stays empty after processing the prefix — in
particular no key-field or normal-field entry exists anywhere — although
section-start rows in the prefix may set the section flags. -/
theorem claim2_no_entries_before_table (rows : List Row)
    (h : ∀ r ∈ rows, strIn "Table Name" r.col2 = false) :
    (runRows initState rows).metadata = [] :=
  runRows_preserves_empty rows initState rfl rfl h

/-- C2 witness. -/
theorem claim2_witness :
    (∀ r ∈ [kfsRow, nfsRow, hdrRow "F" "X" "D" ""],
      strIn "Table Name" r.col2 = false) ∧
    (runRows initState [kfsRow, nfsRow, hdrRow "F" "X" "D" ""]).metadata = [] :=
  ⟨by decide, claim2_no_entries_before_table _ (by decide)⟩

/-- C6.  A Table Name row always creates a fresh record keyed by `col3`
(overwriting any record under that name), resets both section flags, and
appends `col3` to the ordered results list; consequently, when the same
table name appears twice, the final record keeps only fields seen after
the later occurrence, while the results list records both occurrences. -/
theorem claim6_table_name_row :
    (∀ (s : PState) (r : Row) (next? : Option Row),
      strIn "Table Name" r.col2 = true →
      step s r next? = .ok { s with
        tableName := some r.col3
        results := s.results ++ [r.col3]
        inFieldSection := false
        inKeyFieldSection := false
        metadata := dictInsert r.col3 (freshMeta r.col3) s.metadata }) ∧
    (runDocs initState [[tnRow "T", kfsRow, hdrRow "F" "X" "D" "nan",
        tnRow "T", nfsRow, hdrRow "G" "Y" "E" "fk"]]).metadata =
      [("T", { freshMeta "T" with normalFields := [("G", ⟨"Y", "E", "fk"⟩)] })] ∧
    (runDocs initState [[tnRow "T", kfsRow, hdrRow "F" "X" "D" "nan",
        tnRow "T", nfsRow, hdrRow "G" "Y" "E" "fk"]]).results = ["T", "T"] :=
  ⟨fun s r next? h => step_tableNameRow s r next? h, by rfl, by rfl⟩

/-- C6 witness: a Table Name row hitting a state that already holds fields
for `"T"` replaces the record with a fresh empty one and appends to the
results list. -/
theorem claim6_witness :
    strIn "Table Name" (tnRow "T").col2 = true ∧
    step stateKeyT (tnRow "T") none = .ok { stateKeyT with
      tableName := some "T"
      results := stateKeyT.results ++ ["T"]
      inFieldSection := false
      inKeyFieldSection := false
      metadata := dictInsert "T" (freshMeta "T") stateKeyT.metadata } :=
  ⟨by decide, claim6_table_name_row.1 stateKeyT (tnRow "T") none (by decide)⟩

/-- C7.  A row whose columns 2, 3 and 4 are all empty is a no-op: the step
returns the state unchanged, so no table context, section flag, pending
field name or metadata entry changes. -/
theorem claim7_blank_row_noop (s : PState) (r : Row) (next? : Option Row)
    (h2 : r.col2 = "") (_h3 : r.col3 = "") (h4 : r.col4 = "") :
    step s r next? = .ok s := by
  have hd : dataRowCol2 r.col2 = true := by rw [h2]; decide
  rw [step_dataRow s r next? hd]
  have hnh : r.col1 ≠ "nan" ∨ r.col2 = "" ∨ r.col2 = "nan" := Or.inr (Or.inl h2)
  cases hT : s.tableName with
  | none => simp only
  | some t =>
    simp only
    by_cases ht : t = ""
    · rw [if_pos ht]
    · rw [if_neg ht]
      cases hkf : s.inKeyFieldSection
      · rw [if_neg (by simp)]
        cases hnf : s.inFieldSection
        · rw [if_neg (by simp)]
        · rw [if_pos rfl]
          cases hpf : s.currentNormalFieldFullname with
          | none => exact normalFieldStep_cont_none s t r next? hnh hpf
          | some pf =>
            rw [normalFieldStep_cont_some s t r next? pf hnh hpf]
            rw [if_neg (by simp [h4])]
      · rw [if_pos rfl]
        cases hpf : s.currentKeyFieldFullname with
        | none => exact keyFieldStep_cont_none s t r next? hnh hpf
        | some pf =>
          rw [keyFieldStep_cont_some s t r next? pf hnh hpf]
          rw [if_neg (by simp [h4])]

/-- C7 witness. -/
theorem claim7_witness :
    (⟨"x", "", "", "", "y"⟩ : Row).col2 = "" ∧
    step stateKeyT ⟨"x", "", "", "", "y"⟩ none = .ok stateKeyT :=
  ⟨rfl, claim7_blank_row_noop stateKeyT ⟨"x", "", "", "", "y"⟩ none rfl rfl rfl⟩

/-- C9.  Serializing a metadata mapping to a JSON document and re-parsing
it yields a structurally identical mapping: same keys in the same order,
same nested field dictionaries, same string values. -/
theorem claim9_json_round_trip (m : List (String × TableMetadata)) :
    jsonToMetadata (metadataToJson m) = some m := by
  simp [metadataToJson, jsonToMetadata, jsonToTables_round]

/-- C3.  In an active key-field (resp. normal-field) section, a header row
whose candidate name (column 2) has length ≥ 19, followed by a row with
column 1 non-empty/non-sentinel and column 2 non-empty/non-sentinel,
creates a field entry keyed by the separator-free concatenation of the two
column-2 values, with the current row's column 3 as type, column 4 as
description and column 5 (with `"nan"` normalized to `""`) as foreign
key. -/
theorem claim3_truncated_name_reassembly :
    (∀ (s : PState) (t : String) (md : TableMetadata) (r nr : Row),
      dataRowCol2 r.col2 = true →
      s.tableName = some t → t ≠ "" →
      s.inKeyFieldSection = true →
      dictLookup t s.metadata = some md →
      r.col1 = "nan" → r.col2 ≠ "" → r.col2 ≠ "nan" → r.col2.length ≥ 19 →
      nr.col1 ≠ "" → nr.col1 ≠ "nan" → nr.col2 ≠ "" → nr.col2 ≠ "nan" →
      step s r (some nr) = .ok { s with
        currentKeyFieldFullname := some (r.col2 ++ nr.col2)
        metadata := dictInsert t
          ({ md with keyFields := dictInsert (r.col2 ++ nr.col2) ⟨r.col3, r.col4, if r.col5 = "nan" then "" else r.col5⟩ md.keyFields })
          s.metadata }) ∧
    (∀ (s : PState) (t : String) (md : TableMetadata) (r nr : Row),
      dataRowCol2 r.col2 = true →
      s.tableName = some t → t ≠ "" →
      s.inKeyFieldSection = false → s.inFieldSection = true →
      dictLookup t s.metadata = some md →
      r.col1 = "nan" → r.col2 ≠ "" → r.col2 ≠ "nan" → r.col2.length ≥ 19 →
      nr.col1 ≠ "" → nr.col1 ≠ "nan" → nr.col2 ≠ "" → nr.col2 ≠ "nan" →
      step s r (some nr) = .ok { s with
        currentNormalFieldFullname := some (r.col2 ++ nr.col2)
        metadata := dictInsert t
          ({ md with normalFields := dictInsert (r.col2 ++ nr.col2) ⟨r.col3, r.col4, if r.col5 = "nan" then "" else r.col5⟩ md.normalFields })
          s.metadata }) := by
  constructor
  · intro s t md r nr hd hT ht hks hmd h1 h2 h3 h4 _ hn1 _ hn2
    rw [step_dataRow s r (some nr) hd]
    simp only [hT]
    rw [if_neg ht, hks, if_pos rfl]
    rw [keyFieldStep_header_long s t r nr md h1 h2 h3 h4 hn1 hn2 hmd, hT, hks]
    rfl
  · intro s t md r nr hd hT ht hks hnf hmd h1 h2 h3 h4 _ hn1 _ hn2
    rw [step_dataRow s r (some nr) hd]
    simp only [hT]
    rw [if_neg ht, hks, if_neg (by simp), hnf, if_pos rfl]
    rw [normalFieldStep_header_long s t r nr md h1 h2 h3 h4 hn1 hn2 hmd, hT, hks, hnf]
    rfl

/-- C3 witness: the spec example, reassembling
`"ACCOUNT_OPEN_DATE_T" ++ "IMESTAMP" = "ACCOUNT_OPEN_DATE_TIMESTAMP"`. -/
theorem claim3_witness :
    rowACC.col2.length ≥ 19 ∧
    rowACC.col2 ++ rowIME.col2 = "ACCOUNT_OPEN_DATE_TIMESTAMP" ∧
    step stateKey0 rowACC (some rowIME) = .ok { stateKey0 with
      currentKeyFieldFullname := some (rowACC.col2 ++ rowIME.col2)
      metadata := dictInsert "T"
        ({ freshMeta "T" with keyFields := dictInsert (rowACC.col2 ++ rowIME.col2) ⟨rowACC.col3, rowACC.col4, if rowACC.col5 = "nan" then "" else rowACC.col5⟩ (freshMeta "T").keyFields })
        stateKey0.metadata } :=
  ⟨by decide, by decide,
   claim3_truncated_name_reassembly.1 stateKey0 "T" (freshMeta "T") rowACC rowIME
     (by decide) rfl (by decide) rfl rfl rfl (by decide) (by decide) (by decide)
     (by decide) (by decide) (by decide) (by decide)⟩

/-- C5.  In an active field section, a continuation row (column 1
non-empty and not the sentinel) with a pending field set appends a single
space followed by the row's column 4 to the pending field's stored
description, when column 4 is non-empty, not `"nan"` and not
`"Unnamed: 3"`; nothing else in the state changes. -/
theorem claim5_description_continuation :
    (∀ (s : PState) (t pf : String) (md : TableMetadata) (fi : FieldInfo)
        (r : Row) (next? : Option Row),
      dataRowCol2 r.col2 = true →
      s.tableName = some t → t ≠ "" →
      s.inKeyFieldSection = true →
      s.currentKeyFieldFullname = some pf → pf ≠ "" →
      dictLookup t s.metadata = some md →
      dictLookup pf md.keyFields = some fi →
      r.col1 ≠ "" → r.col1 ≠ "nan" →
      r.col4 ≠ "" → r.col4 ≠ "nan" → r.col4 ≠ "Unnamed: 3" →
      step s r next? = .ok { s with
        metadata := dictInsert t
          ({ md with keyFields := dictInsert pf ({ fi with description := fi.description ++ " " ++ r.col4 }) md.keyFields })
          s.metadata }) ∧
    (∀ (s : PState) (t pf : String) (md : TableMetadata) (fi : FieldInfo)
        (r : Row) (next? : Option Row),
      dataRowCol2 r.col2 = true →
      s.tableName = some t → t ≠ "" →
      s.inKeyFieldSection = false → s.inFieldSection = true →
      s.currentNormalFieldFullname = some pf → pf ≠ "" →
      dictLookup t s.metadata = some md →
      dictLookup pf md.normalFields = some fi →
      r.col1 ≠ "" → r.col1 ≠ "nan" →
      r.col4 ≠ "" → r.col4 ≠ "nan" → r.col4 ≠ "Unnamed: 3" →
      step s r next? = .ok { s with
        metadata := dictInsert t
          ({ md with normalFields := dictInsert pf ({ fi with description := fi.description ++ " " ++ r.col4 }) md.normalFields })
          s.metadata }) := by
  constructor
  · intro s t pf md fi r next? hd hT ht hks hpf hpf0 hmd hfi _ hc1 h4c h4a h4b
    rw [step_dataRow s r next? hd]
    simp only [hT]
    rw [if_neg ht, hks, if_pos rfl]
    rw [keyFieldStep_cont_append s t r next? pf md fi hc1 hpf hpf0 h4a h4b h4c hmd hfi,
      hT, hks]
  · intro s t pf md fi r next? hd hT ht hks hnf hpf hpf0 hmd hfi _ hc1 h4c h4a h4b
    rw [step_dataRow s r next? hd]
    simp only [hT]
    rw [if_neg ht, hks, if_neg (by simp), hnf, if_pos rfl]
    rw [normalFieldStep_cont_append s t r next? pf md fi hc1 hpf hpf0 h4a h4b h4c hmd hfi,
      hT, hks, hnf]

/-- C5 witness: the spec example — field `status` created with description
`"Current"`, then a continuation row with column 4 `"value of account."`,
ending with description `"Current value of account."`. -/
theorem claim5_witness :
    rowCont.col1 ≠ "nan" ∧
    ("Current" ++ " " ++ rowCont.col4 : String) = "Current value of account." ∧
    step stateNormT rowCont none = .ok { stateNormT with
      metadata := dictInsert "T"
        ({ mdNormalStatus with normalFields := dictInsert "status" ({ (⟨"CHAR", "Current", ""⟩ : FieldInfo) with description := "Current" ++ " " ++ rowCont.col4 }) mdNormalStatus.normalFields })
        stateNormT.metadata } :=
  ⟨by decide, by decide,
   claim5_description_continuation.2 stateNormT "T" "status" mdNormalStatus
     ⟨"CHAR", "Current", ""⟩ rowCont none (by decide) rfl (by decide) rfl rfl rfl
     (by decide) rfl rfl (by decide) (by decide) (by decide) (by decide) (by decide)⟩

/-- C4 counterexample: in an active key-field section, a data row with
column 1 equal to the empty string (not the literal `"nan"`) and a valid
column-2 name is not treated as a new field header — no entry is
created — although the claim counts empty column 1 as the sentinel. -/
theorem claim4_counterexample :
    (runRows initState [tnRow "T", kfsRow, ⟨"", "SHORTNAME", "CHAR", "D", ""⟩]).metadata =
      [("T", freshMeta "T")] ∧
    (freshMeta "T").keyFields = [] := by
  constructor
  · rfl
  · rfl

/-- C4 (amended).  A field-section data row opens a new field entry only
when column 1 is exactly the literal `"nan"` and column 2 is non-empty and
not `"nan"` (an empty column 1 does not qualify); any row failing that
test follows the continuation path, which never creates or removes
entries (the key sets of every table's field dictionaries are unchanged);
and a qualifying header row with a short name always creates the entry
keyed by column 2. -/
theorem claim4_header_criterion :
    (∀ (s : PState) (r : Row) (next? : Option Row) (s' : PState) (tb : String),
      dataRowCol2 r.col2 = true →
      (r.col1 ≠ "nan" ∨ r.col2 = "" ∨ r.col2 = "nan") →
      step s r next? = .ok s' →
      (dictLookup tb s'.metadata).map
          (fun m => (m.keyFields.map Prod.fst, m.normalFields.map Prod.fst)) =
        (dictLookup tb s.metadata).map
          (fun m => (m.keyFields.map Prod.fst, m.normalFields.map Prod.fst))) ∧
    (∀ (s : PState) (t : String) (md : TableMetadata) (r : Row) (next? : Option Row),
      dataRowCol2 r.col2 = true →
      s.tableName = some t → t ≠ "" →
      s.inKeyFieldSection = true →
      dictLookup t s.metadata = some md →
      r.col1 = "nan" → r.col2 ≠ "" → r.col2 ≠ "nan" → r.col2.length < 19 →
      step s r next? = .ok { s with
        currentKeyFieldFullname := some r.col2
        metadata := dictInsert t
          ({ md with keyFields := dictInsert r.col2 ⟨r.col3, r.col4, if r.col5 = "nan" then "" else r.col5⟩ md.keyFields })
          s.metadata }) ∧
    (∀ (s : PState) (t : String) (md : TableMetadata) (r : Row) (next? : Option Row),
      dataRowCol2 r.col2 = true →
      s.tableName = some t → t ≠ "" →
      s.inKeyFieldSection = false → s.inFieldSection = true →
      dictLookup t s.metadata = some md →
      r.col1 = "nan" → r.col2 ≠ "" → r.col2 ≠ "nan" → r.col2.length < 19 →
      step s r next? = .ok { s with
        currentNormalFieldFullname := some r.col2
        metadata := dictInsert t
          ({ md with normalFields := dictInsert r.col2 ⟨r.col3, r.col4, if r.col5 = "nan" then "" else r.col5⟩ md.normalFields })
          s.metadata }) := by
  refine ⟨fun s r next? s' tb hd h hok => step_ok_keys_not_header s r next? s' hd h hok tb,
    ?_, ?_⟩
  · intro s t md r next? hd hT ht hks hmd h1 h2 h3 h4
    rw [step_dataRow s r next? hd]
    simp only [hT]
    rw [if_neg ht, hks, if_pos rfl]
    rw [keyFieldStep_header_short s t r next? md h1 h2 h3 h4 hmd, hT, hks]
    rfl
  · intro s t md r next? hd hT ht hks hnf hmd h1 h2 h3 h4
    rw [step_dataRow s r next? hd]
    simp only [hT]
    rw [if_neg ht, hks, if_neg (by simp), hnf, if_pos rfl]
    rw [normalFieldStep_header_short s t r next? md h1 h2 h3 h4 hmd, hT, hks, hnf]
    rfl

/-- C4 witness. -/
theorem claim4_witness :
    ((⟨"", "SHORTNAME", "CHAR", "", ""⟩ : Row).col1 ≠ "nan") ∧
    (dictLookup "T" stateKeyT.metadata).map
        (fun m => (m.keyFields.map Prod.fst, m.normalFields.map Prod.fst)) =
      (dictLookup "T" stateKeyT.metadata).map
        (fun m => (m.keyFields.map Prod.fst, m.normalFields.map Prod.fst)) ∧
    step stateKey0 (hdrRow "status" "CHAR" "Current" "nan") none = .ok { stateKey0 with
      currentKeyFieldFullname := some (hdrRow "status" "CHAR" "Current" "nan").col2
      metadata := dictInsert "T"
        ({ freshMeta "T" with keyFields := dictInsert (hdrRow "status" "CHAR" "Current" "nan").col2 ⟨(hdrRow "status" "CHAR" "Current" "nan").col3, (hdrRow "status" "CHAR" "Current" "nan").col4, if (hdrRow "status" "CHAR" "Current" "nan").col5 = "nan" then "" else (hdrRow "status" "CHAR" "Current" "nan").col5⟩ (freshMeta "T").keyFields })
        stateKey0.metadata } :=
  ⟨by decide,
   claim4_header_criterion.1 stateKeyT ⟨"", "SHORTNAME", "CHAR", "", ""⟩ none stateKeyT
     "T" (by decide) (Or.inl (by decide)) rfl,
   claim4_header_criterion.2.1 stateKey0 "T" (freshMeta "T")
     (hdrRow "status" "CHAR" "Current" "nan") none (by decide) rfl (by decide) rfl rfl
     rfl (by decide) (by decide) (by decide)⟩

/-- C8.  At all four entry-creation sites (key/normal section, short or
reassembled-truncated name), the stored field record carries column 3 as
type, column 4 as description, and column 5 as foreign key with the
literal `"nan"` normalized to the empty string and every other value
stored verbatim. -/
theorem claim8_foreign_key_normalization :
    (∀ (s : PState) (t : String) (md : TableMetadata) (r : Row) (next? : Option Row),
      dataRowCol2 r.col2 = true →
      s.tableName = some t → t ≠ "" →
      s.inKeyFieldSection = true →
      dictLookup t s.metadata = some md →
      r.col1 = "nan" → r.col2 ≠ "" → r.col2 ≠ "nan" → r.col2.length < 19 →
      ((step s r next?).toOption.bind (fun s' => dictLookup t s'.metadata)).bind
          (fun md' => dictLookup r.col2 md'.keyFields) =
        some ⟨r.col3, r.col4, if r.col5 = "nan" then "" else r.col5⟩) ∧
    (∀ (s : PState) (t : String) (md : TableMetadata) (r nr : Row),
      dataRowCol2 r.col2 = true →
      s.tableName = some t → t ≠ "" →
      s.inKeyFieldSection = true →
      dictLookup t s.metadata = some md →
      r.col1 = "nan" → r.col2 ≠ "" → r.col2 ≠ "nan" → r.col2.length ≥ 19 →
      nr.col1 ≠ "nan" → nr.col2 ≠ "nan" →
      ((step s r (some nr)).toOption.bind (fun s' => dictLookup t s'.metadata)).bind
          (fun md' => dictLookup (r.col2 ++ nr.col2) md'.keyFields) =
        some ⟨r.col3, r.col4, if r.col5 = "nan" then "" else r.col5⟩) ∧
    (∀ (s : PState) (t : String) (md : TableMetadata) (r : Row) (next? : Option Row),
      dataRowCol2 r.col2 = true →
      s.tableName = some t → t ≠ "" →
      s.inKeyFieldSection = false → s.inFieldSection = true →
      dictLookup t s.metadata = some md →
      r.col1 = "nan" → r.col2 ≠ "" → r.col2 ≠ "nan" → r.col2.length < 19 →
      ((step s r next?).toOption.bind (fun s' => dictLookup t s'.metadata)).bind
          (fun md' => dictLookup r.col2 md'.normalFields) =
        some ⟨r.col3, r.col4, if r.col5 = "nan" then "" else r.col5⟩) ∧
    (∀ (s : PState) (t : String) (md : TableMetadata) (r nr : Row),
      dataRowCol2 r.col2 = true →
      s.tableName = some t → t ≠ "" →
      s.inKeyFieldSection = false → s.inFieldSection = true →
      dictLookup t s.metadata = some md →
      r.col1 = "nan" → r.col2 ≠ "" → r.col2 ≠ "nan" → r.col2.length ≥ 19 →
      nr.col1 ≠ "nan" → nr.col2 ≠ "nan" →
      ((step s r (some nr)).toOption.bind (fun s' => dictLookup t s'.metadata)).bind
          (fun md' => dictLookup (r.col2 ++ nr.col2) md'.normalFields) =
        some ⟨r.col3, r.col4, if r.col5 = "nan" then "" else r.col5⟩) := by
  refine ⟨?_, ?_, ?_, ?_⟩
  · intro s t md r next? hd hT ht hks hmd h1 h2 h3 h4
    rw [step_dataRow s r next? hd]
    simp only [hT]
    rw [if_neg ht, hks, if_pos rfl]
    rw [keyFieldStep_header_short s t r next? md h1 h2 h3 h4 hmd]
    simp [Except.toOption, dictLookup_dictInsert_self, mkFieldInfo]
  · intro s t md r nr hd hT ht hks hmd h1 h2 h3 h4 hn1 hn2
    rw [step_dataRow s r (some nr) hd]
    simp only [hT]
    rw [if_neg ht, hks, if_pos rfl]
    rw [keyFieldStep_header_long s t r nr md h1 h2 h3 h4 hn1 hn2 hmd]
    simp [Except.toOption, dictLookup_dictInsert_self, mkFieldInfo]
  · intro s t md r next? hd hT ht hks hnf hmd h1 h2 h3 h4
    rw [step_dataRow s r next? hd]
    simp only [hT]
    rw [if_neg ht, hks, if_neg (by simp), hnf, if_pos rfl]
    rw [normalFieldStep_header_short s t r next? md h1 h2 h3 h4 hmd]
    simp [Except.toOption, dictLookup_dictInsert_self, mkFieldInfo]
  · intro s t md r nr hd hT ht hks hnf hmd h1 h2 h3 h4 hn1 hn2
    rw [step_dataRow s r (some nr) hd]
    simp only [hT]
    rw [if_neg ht, hks, if_neg (by simp), hnf, if_pos rfl]
    rw [normalFieldStep_header_long s t r nr md h1 h2 h3 h4 hn1 hn2 hmd]
    simp [Except.toOption, dictLookup_dictInsert_self, mkFieldInfo]

/-- C8 witness: a key field whose column 5 is the literal `"nan"` is
stored with `foreign_key = ""`, and a normal field whose column 5 is
`"FK1"` is stored with `foreign_key = "FK1"`. -/
theorem claim8_witness :
    (hdrRow "status" "CHAR" "Current" "nan").col5 = "nan" ∧
    ((step stateKey0 (hdrRow "status" "CHAR" "Current" "nan") none).toOption.bind
        (fun s' => dictLookup "T" s'.metadata)).bind
      (fun md' => dictLookup (hdrRow "status" "CHAR" "Current" "nan").col2 md'.keyFields) =
      some ⟨(hdrRow "status" "CHAR" "Current" "nan").col3, (hdrRow "status" "CHAR" "Current" "nan").col4, if (hdrRow "status" "CHAR" "Current" "nan").col5 = "nan" then "" else (hdrRow "status" "CHAR" "Current" "nan").col5⟩ ∧
    ((step stateNorm0 (hdrRow "balance" "NUM" "Bal" "FK1") none).toOption.bind
        (fun s' => dictLookup "T" s'.metadata)).bind
      (fun md' => dictLookup (hdrRow "balance" "NUM" "Bal" "FK1").col2 md'.normalFields) =
      some ⟨(hdrRow "balance" "NUM" "Bal" "FK1").col3, (hdrRow "balance" "NUM" "Bal" "FK1").col4, if (hdrRow "balance" "NUM" "Bal" "FK1").col5 = "nan" then "" else (hdrRow "balance" "NUM" "Bal" "FK1").col5⟩ :=
  ⟨rfl,
   claim8_foreign_key_normalization.1 stateKey0 "T" (freshMeta "T")
     (hdrRow "status" "CHAR" "Current" "nan") none (by decide) rfl (by decide) rfl rfl
     rfl (by decide) (by decide) (by decide),
   claim8_foreign_key_normalization.2.2.1 stateNorm0 "T" (freshMeta "T")
     (hdrRow "balance" "NUM" "Bal" "FK1") none (by decide) rfl (by decide) rfl rfl rfl
     rfl (by decide) (by decide) (by decide)⟩

theorem setAttr_ok_results (s : PState) (upd : TableMetadata → TableMetadata)
    (s' : PState) (hok : setAttr s upd = .ok s') : s'.results = s.results := by
  cases hT : s.tableName with
  | none =>
    simp only [setAttr, hT] at hok
    exact absurd hok (by simp)
  | some t =>
    cases hmd : dictLookup t s.metadata with
    | none =>
      simp only [setAttr, hT, hmd] at hok
      exact absurd hok (by simp)
    | some md =>
      simp only [setAttr, hT, hmd, Except.ok.injEq] at hok
      subst hok
      rfl

theorem insertKeyField_ok_results (s : PState) (t name : String) (r : Row)
    (s' : PState) (hok : insertKeyField s t name r = .ok s') :
    s'.results = s.results := by
  cases hmd : dictLookup t s.metadata with
  | none =>
    simp only [insertKeyField, hmd] at hok
    exact absurd hok (by simp)
  | some md =>
    simp only [insertKeyField, hmd, Except.ok.injEq] at hok
    subst hok
    rfl

theorem insertNormalField_ok_results (s : PState) (t name : String) (r : Row)
    (s' : PState) (hok : insertNormalField s t name r = .ok s') :
    s'.results = s.results := by
  cases hmd : dictLookup t s.metadata with
  | none =>
    simp only [insertNormalField, hmd] at hok
    exact absurd hok (by simp)
  | some md =>
    simp only [insertNormalField, hmd, Except.ok.injEq] at hok
    subst hok
    rfl

theorem appendKeyDesc_ok_results (s : PState) (t pf d : String) (s' : PState)
    (hok : appendKeyDesc s t pf d = .ok s') : s'.results = s.results := by
  cases hmd : dictLookup t s.metadata with
  | none =>
    simp only [appendKeyDesc, hmd] at hok
    exact absurd hok (by simp)
  | some md =>
    cases hfi : dictLookup pf md.keyFields with
    | none =>
      simp only [appendKeyDesc, hmd, hfi] at hok
      exact absurd hok (by simp)
    | some fi =>
      simp only [appendKeyDesc, hmd, hfi, Except.ok.injEq] at hok
      subst hok
      rfl

theorem appendNormalDesc_ok_results (s : PState) (t pf d : String) (s' : PState)
    (hok : appendNormalDesc s t pf d = .ok s') : s'.results = s.results := by
  cases hmd : dictLookup t s.metadata with
  | none =>
    simp only [appendNormalDesc, hmd] at hok
    exact absurd hok (by simp)
  | some md =>
    cases hfi : dictLookup pf md.normalFields with
    | none =>
      simp only [appendNormalDesc, hmd, hfi] at hok
      exact absurd hok (by simp)
    | some fi =>
      simp only [appendNormalDesc, hmd, hfi, Except.ok.injEq] at hok
      subst hok
      rfl

theorem keyFieldStep_ok_results (s : PState) (t : String) (r : Row)
    (next? : Option Row) (s' : PState)
    (hok : keyFieldStep s t r next? = .ok s') : s'.results = s.results := by
  unfold keyFieldStep at hok
  split at hok
  · split at hok
    · split at hok
      · split at hok
        · exact insertKeyField_ok_results _ _ _ _ _ hok
        · cases hok; rfl
      · cases hok; rfl
    · exact insertKeyField_ok_results _ _ _ _ _ hok
  · split at hok
    · cases hok; rfl
    · split at hok
      · exact appendKeyDesc_ok_results _ _ _ _ _ hok
      · cases hok; rfl

theorem normalFieldStep_ok_results (s : PState) (t : String) (r : Row)
    (next? : Option Row) (s' : PState)
    (hok : normalFieldStep s t r next? = .ok s') : s'.results = s.results := by
  unfold normalFieldStep at hok
  split at hok
  · split at hok
    · split at hok
      · split at hok
        · exact insertNormalField_ok_results _ _ _ _ _ hok
        · cases hok; rfl
      · cases hok; rfl
    · exact insertNormalField_ok_results _ _ _ _ _ hok
  · split at hok
    · cases hok; rfl
    · split at hok
      · exact appendNormalDesc_ok_results _ _ _ _ _ hok
      · cases hok; rfl

theorem step_ok_results (s : PState) (r : Row) (next? : Option Row) (s' : PState)
    (hr : strIn "Table Name" r.col2 = false)
    (hok : step s r next? = .ok s') : s'.results = s.results := by
  simp only [step, hr, Bool.false_eq_true, if_false] at hok
  split at hok
  · exact setAttr_ok_results _ _ _ hok
  · split at hok
    · exact setAttr_ok_results _ _ _ hok
    · split at hok
      · exact setAttr_ok_results _ _ _ hok
      · split at hok
        · cases hok; rfl
        · split at hok
          · cases hok; rfl
          · split at hok
            · cases hok; rfl
            · split at hok
              · cases hok; rfl
              · split at hok
                · exact keyFieldStep_ok_results _ _ _ _ _ hok
                · split at hok
                  · exact normalFieldStep_ok_results _ _ _ _ _ hok
                  · cases hok; rfl

/-- C10 counterexample: two input streams whose encounter-order name lists
differ (one vs. two occurrences of `"T"`) produce identical caller-visible
outputs, so the value delivered to the caller cannot comprise the ordered
name list — the function returns only the mapping (`return metadata`). -/
theorem claim10_counterexample :
    extractOutput [[tnRow "T"]] = extractOutput [[tnRow "T", tnRow "T"]] ∧
    namesList [[tnRow "T"]] ≠ namesList [[tnRow "T", tnRow "T"]] := by
  constructor
  · rfl
  · decide

/-- C10 (amended).  The value delivered to the caller is the table-name →
metadata mapping alone; the ordered encounter list of table names (with
duplicates) is accumulated in internal state — appended to exactly at
Table Name rows and untouched by every other row — but is not part of the
returned value. -/
theorem claim10_output_mapping_only :
    (∀ (s : PState) (r : Row) (next? : Option Row) (s' : PState),
      strIn "Table Name" r.col2 = false → step s r next? = .ok s' →
      s'.results = s.results) ∧
    (∀ (s : PState) (r : Row) (next? : Option Row),
      strIn "Table Name" r.col2 = true →
      step s r next? = .ok { s with
        tableName := some r.col3
        results := s.results ++ [r.col3]
        inFieldSection := false
        inKeyFieldSection := false
        metadata := dictInsert r.col3 (freshMeta r.col3) s.metadata }) ∧
    extractOutput [[tnRow "T", tnRow "T"]] = [("T", freshMeta "T")] ∧
    namesList [[tnRow "T", tnRow "T"]] = ["T", "T"] :=
  ⟨fun s r next? s' hr hok => step_ok_results s r next? s' hr hok,
   fun s r next? h => step_tableNameRow s r next? h,
   rfl, rfl⟩

/-- C10 witness. -/
theorem claim10_witness :
    strIn "Table Name" (⟨"x", "", "", "", "y"⟩ : Row).col2 = false ∧
    stateKeyT.results = stateKeyT.results ∧
    step stateKey0 (tnRow "U") none = .ok { stateKey0 with
      tableName := some "U"
      results := stateKey0.results ++ ["U"]
      inFieldSection := false
      inKeyFieldSection := false
      metadata := dictInsert "U" (freshMeta "U") stateKey0.metadata } :=
  ⟨by decide,
   claim10_output_mapping_only.1 stateKeyT ⟨"x", "", "", "", "y"⟩ none stateKeyT
     (by decide) rfl,
   claim10_output_mapping_only.2.1 stateKey0 (tnRow "U") none (by decide)⟩
